import Mathlib

namespace DevLens

/-!
Verification of the DevLens-AI media-to-documentation pipeline spec against
the repository.  The frontend components (UploadForm, DocViewer,
SessionDetails, SessionCard) are embedded from the JavaScript/TypeScript
sources.  The backend pipeline components (Relevance Segmenter, Evidence
Extractor, Task Lifecycle Manager, Documentation Generator) are not part of
the source tree, so they are modelled from the specification text.
-/

/-! ## Relevance Segmenter: audio windows -/

/-- An audio window with start/end offsets in seconds (modelled as rationals). -/
structure AudioWindow where
  start : ℚ
  stop : ℚ
deriving DecidableEq, Repr

/-- Modelled from the spec: the Relevance Segmenter (backend code absent from
the source tree) splits the audio track of duration `D` into fixed-length
windows of width `W`; the number of windows is the ceiling of `D / W`. -/
def numWindows (D W : ℚ) : ℕ := ⌈D / W⌉₊

/-- Modelled from the spec: window `i` spans `[i*W, min ((i+1)*W) D)`, so the
ordered window sequence covers `[0, D)` contiguously. -/
def buildWindows (D W : ℚ) : List AudioWindow :=
  (List.range (numWindows D W)).map
    (fun (i : ℕ) => ⟨(i : ℚ) * W, min (((i : ℚ) + 1) * W) D⟩)

/-! ## Evidence Extractor: frame deduplication -/

/-- An evidence frame: a timestamp in seconds and a similarity fingerprint
(the fingerprint representation is abstract; similarity is a scoring
function over fingerprints). -/
structure EvidenceFrame (α : Type) where
  timestamp : ℚ
  fingerprint : α
deriving DecidableEq, Repr

/-- Modelled from the spec: the Evidence Extractor (backend code absent from
the source tree) accepts a candidate frame only when its fingerprint
similarity to every already-accepted frame does not exceed the dedup
threshold. -/
def acceptFrame (sim : α → α → ℚ) (t : ℚ)
    (acc : List (EvidenceFrame α)) (c : EvidenceFrame α) : Bool :=
  acc.all (fun a => decide (sim c.fingerprint a.fingerprint ≤ t))

/-- Modelled from the spec: candidates are considered in chronological order
(the order of the list); a candidate is appended to the accepted set exactly
when `acceptFrame` holds, otherwise it is rejected. -/
def dedupFrames (sim : α → α → ℚ) (t : ℚ)
    (cands : List (EvidenceFrame α)) : List (EvidenceFrame α) :=
  cands.foldl (fun acc c => if acceptFrame sim t acc c then acc ++ [c] else acc) []

/-- A symmetric similarity on rational fingerprints used to instantiate the
dedup invariant on a concrete run. -/
def ratSim (x y : ℚ) : ℚ := 1 - |x - y|

/-! ## Task Lifecycle Manager -/

/-- The pipeline stages, modelled from the spec state machine. -/
inductive Stage
  | Queued | ProxyBuilding | RelevanceFiltering | EvidenceExtracting
  | PromptAssembling | Generating | Completed
deriving DecidableEq, Repr

/-- Position of a stage along the forward chain. -/
def Stage.rank : Stage → ℕ
  | .Queued => 0
  | .ProxyBuilding => 1
  | .RelevanceFiltering => 2
  | .EvidenceExtracting => 3
  | .PromptAssembling => 4
  | .Generating => 5
  | .Completed => 6

/-- Modelled from the spec: the unique forward successor of each stage;
`Completed` has none. -/
def Stage.next : Stage → Option Stage
  | .Queued => some .ProxyBuilding
  | .ProxyBuilding => some .RelevanceFiltering
  | .RelevanceFiltering => some .EvidenceExtracting
  | .EvidenceExtracting => some .PromptAssembling
  | .PromptAssembling => some .Generating
  | .Generating => some .Completed
  | .Completed => none

/-- A task's lifecycle state: either at a stage of the forward chain, or
terminally failed recording the stage it failed at and a reason. -/
inductive TaskState
  | stage (s : Stage)
  | failed (origin : Stage) (reason : String)
deriving DecidableEq, Repr

/-- Terminal states: `Completed` and every `failed` state. -/
def TaskState.isTerminal : TaskState → Bool
  | .stage .Completed => true
  | .stage _ => false
  | .failed _ _ => true

/-- Modelled from the spec: the allowed transitions of the Task Lifecycle
Manager.  From a non-terminal stage the task either advances to the unique
next stage or fails recording the current stage; terminal states admit no
transition. -/
def canStep : TaskState → TaskState → Bool
  | .stage s, .stage s2 => Stage.next s == some s2
  | .stage s, .failed o _ => o == s && !(s == .Completed)
  | .failed _ _, _ => false

/-- Rank of a lifecycle state; failure states sit above the whole chain. -/
def TaskState.rank : TaskState → ℕ
  | .stage s => s.rank
  | .failed _ _ => 7

/-- The strict-progress ordering on lifecycle states. -/
def RankLt (u v : TaskState) : Prop := u.rank < v.rank

instance : IsTrans TaskState RankLt := ⟨fun _ _ _ h1 h2 => lt_trans h1 h2⟩

/-! ## Documentation Generator: bounded retries -/

/-- A task record: identifier, lifecycle state, and the final result text
(present only on completion). -/
structure Task where
  id : String
  state : TaskState
  result : Option String
deriving DecidableEq, Repr

/-- Modelled from the spec: the Documentation Generator (backend code absent
from the source tree) runs up to a fixed number of generation attempts
(outcome of attempt number `i` given by `attempt i`); the first success is
returned, and when the whole budget is exhausted the last attempt's error is
returned. -/
def tryGenerate (attempt : ℕ → Except String String) :
    ℕ → ℕ → Except String String
  | 0, _ => Except.error "no attempts"
  | 1, i => attempt i
  | (k + 2), i =>
    match attempt i with
    | Except.ok r => Except.ok r
    | Except.error _ => tryGenerate attempt (k + 1) (i + 1)

/-- Modelled from the spec: on generation success the task completes with
the returned markdown; on exhaustion it fails at stage `Generating` with the
last error and stores no partial result. -/
def finishGeneration (t : Task) (budget : ℕ)
    (attempt : ℕ → Except String String) : Task :=
  match tryGenerate attempt budget 0 with
  | Except.ok r => { t with state := .stage .Completed, result := some r }
  | Except.error e => { t with state := .failed .Generating e, result := none }

/-- A concrete task used to instantiate the retry-exhaustion theorem. -/
def demoTask : Task := ⟨"task-1", .stage .Generating, none⟩

/-- Concrete error details for three failing attempts. -/
def demoErrs (j : ℕ) : String :=
  if j = 0 then "rate limit" else if j = 1 then "timeout" else "overloaded"

/-- A concrete attempt function that fails on every attempt. -/
def demoAttempt (j : ℕ) : Except String String := Except.error (demoErrs j)

/-! ## Frontend: UploadForm (src/frontend/src/components/UploadForm.jsx) -/

/-- A session reference as carried by the `session` prop of `UploadForm`. -/
structure SessionRef where
  id : String
  title : String
  suggested_mode : Option String
deriving DecidableEq, Repr

/-- The two source kinds of the upload form: a dropped video file or a
Google Drive URL (the `uploadMode` state, `'file' | 'drive'`). -/
inductive SourceKind
  | file
  | drive
deriving DecidableEq, Repr

/-- The `UploadForm` component state relevant to submission.  `videoFile`
holds the selected file's name (`none` when no file is selected). -/
structure FormState where
  uploadMode : SourceKind
  videoFile : Option String
  driveUrl : String
  selectedMode : String
  projectName : String
  language : String
  session : Option SessionRef
deriving DecidableEq, Repr

/-- The initial `useState` values of `UploadForm`. -/
def initialForm : FormState :=
  ⟨.file, none, "", "general_doc", "", "en", none⟩

/-- The `useEffect` on the `session` prop: it copies the session title into
the project name and, when the session carries a `suggested_mode`,
pre-selects that mode. -/
def applySession (f : FormState) (s : SessionRef) : FormState :=
  { f with
    projectName := s.title,
    selectedMode := s.suggested_mode.getD f.selectedMode,
    session := some s }

/-- Whitespace trimming (`driveUrl.trim()`), modelled charwise over the
string's character list. -/
def trimString (s : String) : String :=
  ⟨((s.data.dropWhile Char.isWhitespace).reverse.dropWhile Char.isWhitespace).reverse⟩

/-- `handleSubmit`'s input check: a Drive URL that is non-empty after
trimming, or a selected video file, depending on the active source kind. -/
def hasInput (f : FormState) : Bool :=
  match f.uploadMode with
  | .drive => !(trimString f.driveUrl == "")
  | .file => f.videoFile.isSome

/-- The submit button's `disabled` attribute. -/
def submitDisabled (f : FormState) (uploading : Bool) : Bool :=
  !hasInput f || uploading

/-- The validation message shown when the source is absent. -/
def missingSourceMsg : SourceKind → String
  | .drive => "Please enter a Drive URL"
  | .file => "Please select a video file"

/-- The API requests `handleSubmit` can issue. -/
inductive ApiRequest
  | driveImport (url : String) (sessionId : String)
  | sessionUpload (sessionId : String) (modeId : String) (fileName : String)
  | manualUpload (fileName : String) (projectName : String)
      (language : String) (modeId : String)
deriving DecidableEq, Repr

/-- Outcome of one `handleSubmit` invocation: an early validation error, a
thrown error caught by the surrounding handler, or an issued API request. -/
inductive SubmitOutcome
  | validationError (msg : String)
  | raisedError (msg : String)
  | request (r : ApiRequest)
deriving DecidableEq, Repr

/-- The `handleSubmit` function of `UploadForm`: missing input fails fast
with a validation message; Drive import without a session throws; otherwise
the appropriate API request is issued with the form's current fields. -/
def handleSubmit (f : FormState) : SubmitOutcome :=
  if !hasInput f then
    .validationError (missingSourceMsg f.uploadMode)
  else
    match f.uploadMode with
    | .drive =>
      match f.session with
      | none => .raisedError "Drive import currently requires an active session context."
      | some s => .request (.driveImport f.driveUrl s.id)
    | .file =>
      match f.session with
      | some s => .request (.sessionUpload s.id f.selectedMode (f.videoFile.getD ""))
      | none =>
        .request (.manualUpload (f.videoFile.getD "")
          (if f.projectName == "" then "Untitled Project" else f.projectName)
          f.language f.selectedMode)

/-! ## Frontend: mode catalog grouping in UploadForm -/

/-- A mode entry as returned by the Mode Registry API (`api.getModes`). -/
structure ModeInfo where
  mode : String
  name : String
  department : String
  description : String
deriving DecidableEq, Repr

/-- The fixed department order hard-coded in the mode selector. -/
def departmentOrder : List String := ["R&D", "HR", "Finance"]

/-- The modes of one department, in registry order (the `filter` in the
selector's `optgroup` rendering). -/
def modesFor (modes : List ModeInfo) (dept : String) : List ModeInfo :=
  modes.filter (fun m => m.department == dept)

/-- The presented catalog: one group per department in the fixed order, a
department with no modes rendering nothing (the `return null` branch). -/
def modeCatalog (modes : List ModeInfo) : List (String × List ModeInfo) :=
  (departmentOrder.map (fun d => (d, modesFor modes d))).filter
    (fun p => !p.2.isEmpty)

/-- A concrete registry enumeration used to instantiate the grouping
theorem. -/
def demoModes : List ModeInfo :=
  [⟨"general_doc", "Technical Documentation", "R&D", "General documentation"⟩,
   ⟨"bug_report", "Bug Report", "R&D", "Bug analysis"⟩,
   ⟨"hr_onboarding", "Onboarding Guide", "HR", "Onboarding walkthroughs"⟩]

/-! ## Frontend: session pre-selection and the manual path -/

/-- A concrete form: manual (no session) drive-import submission with a
non-empty Drive URL. -/
def driveNoSessionForm : FormState :=
  { initialForm with
    uploadMode := .drive,
    driveUrl := "https://drive.google.com/file/d/abc" }

/-- A concrete session reference carrying a suggested mode. -/
def demoSession : SessionRef := ⟨"sess-1", "Sprint Review", some "bug_report"⟩

/-! ## Frontend: DocViewer feedback and export
(src/frontend/src/components/DocViewer.jsx) -/

/-- The `DocViewer` feedback state: the chosen rating (null before any
click), the comment text, whether the comment box is shown, and whether a
submission has succeeded. -/
structure ViewerState where
  rating : Option ℕ
  comment : String
  showCommentInput : Bool
  submitted : Bool
deriving DecidableEq, Repr

/-- The initial `useState` values of `DocViewer`'s feedback section. -/
def initialViewer : ViewerState := ⟨none, "", false, false⟩

/-- A feedback request as sent by `api.sendFeedback(taskId, ...)`: the task
identifier it is keyed by, the rating payload (nullable, mirroring the JS
state), and the comment text. -/
structure FeedbackRequest where
  taskId : String
  rating : Option ℕ
  comment : String
deriving DecidableEq, Repr

/-- The user-interface events of the feedback section.  The `apiOk` flag on
the submitting events records whether the backend call succeeds. -/
inductive ViewerEvent
  | rateUp (apiOk : Bool)
  | rateDown
  | editComment (text : String)
  | submitComment (apiOk : Bool)
deriving DecidableEq, Repr

/-- Whether the control firing an event is rendered: the rating buttons
only before a successful submission, the comment box and its submit button
only while `showCommentInput` is set and no submission has succeeded. -/
def eventEnabled (s : ViewerState) : ViewerEvent → Bool
  | .rateUp _ => !s.submitted
  | .rateDown => !s.submitted
  | .editComment _ => s.showCommentInput && !s.submitted
  | .submitComment _ => s.showCommentInput && !s.submitted

/-- One event of the `DocViewer` feedback section.  Thumbs-up sets the
rating to 5 and immediately submits it; thumbs-down sets the rating to 1
and opens the comment box; the comment submit button submits the current
rating with the comment.  `submitFeedback` returns without sending when
`taskId` is empty, and marks `submitted` only when the call succeeds. -/
def viewerStep (taskId : String) (s : ViewerState) :
    ViewerEvent → ViewerState × Option (FeedbackRequest × Bool)
  | .rateUp ok =>
    if taskId == "" then ({ s with rating := some 5 }, none)
    else ({ s with rating := some 5, submitted := ok },
      some (⟨taskId, some 5, s.comment⟩, ok))
  | .rateDown => ({ s with rating := some 1, showCommentInput := true }, none)
  | .editComment txt => ({ s with comment := txt }, none)
  | .submitComment ok =>
    if taskId == "" then (s, none)
    else ({ s with submitted := ok }, some (⟨taskId, s.rating, s.comment⟩, ok))

/-- A run of the feedback section: events whose control is not rendered
cannot fire and are skipped; the others are processed in order, collecting
the feedback requests sent (paired with whether each call succeeded). -/
def viewerRun (taskId : String) :
    ViewerState → List ViewerEvent → ViewerState × List (FeedbackRequest × Bool)
  | s, [] => (s, [])
  | s, e :: rest =>
    if eventEnabled s e then
      let p := viewerStep taskId s e
      let q := viewerRun taskId p.1 rest
      (q.1, p.2.toList ++ q.2)
    else viewerRun taskId s rest

/-- The reachability invariant of the feedback state: the rating is null, 1
or 5, and it is non-null whenever the comment box is open. -/
def ViewerInv (s : ViewerState) : Prop :=
  (s.rating = none ∨ s.rating = some 1 ∨ s.rating = some 5) ∧
  (s.showCommentInput = true → s.rating ≠ none)

/-- The request emitted by a thumbs-up click on task `t1`. -/
def demoFeedback : FeedbackRequest × Bool := (⟨"t1", some 5, ""⟩, true)

/-! ## Frontend: export delivery of a completed result -/

/-- The actions `handleExport` can perform: write text to the clipboard, or
call the backend export API with a task identifier and a target. -/
inductive ExportAction
  | clipboard (text : String)
  | backendExport (taskId : String) (target : String)
deriving DecidableEq, Repr

/-- The `handleExport` function of `DocViewer`: the clipboard target writes
the documentation content itself; every other target calls
`api.exportSession` with the task's identifier. -/
def handleExport (content taskId target : String) : ExportAction :=
  if target == "clipboard" then .clipboard content
  else .backendExport taskId target

/-- JavaScript `||` on strings, with the empty string falsy. -/
def jsOr (a b : String) : String := if a == "" then b else a

/-- A session record as consumed by `SessionDetails` (absent fields
modelled as the empty string). -/
structure SessionRecord where
  id : String
  doc_markdown : String
  result : String
deriving DecidableEq, Repr

/-- The documentation string `SessionDetails` displays and hands off:
`session.doc_markdown || session.result || ""`. -/
def sessionDocumentation (s : SessionRecord) : String :=
  jsOr s.doc_markdown (jsOr s.result "")

/-- The props `SessionDetails` hands to `ExportOptions`: the session's own
identifier and the documentation string. -/
def sessionDetailsHandoff (s : SessionRecord) : String × String :=
  (s.id, sessionDocumentation s)

/-! ## Theorems -/

theorem buildWindows_length (D W : ℚ) :
    (buildWindows D W).length = numWindows D W := by
  unfold buildWindows
  rw [List.length_map, List.length_range]

theorem buildWindows_get (D W : ℚ) (i : ℕ) (h : i < (buildWindows D W).length) :
    (buildWindows D W).get ⟨i, h⟩ = ⟨(i : ℚ) * W, min ((i + 1 : ℚ) * W) D⟩ := by
  simp only [buildWindows, List.get_eq_getElem, List.getElem_map, List.getElem_range]

theorem numWindows_pos {D W : ℚ} (hD : 0 < D) (hW : 0 < W) :
    0 < numWindows D W :=
  Nat.ceil_pos.mpr (div_pos hD hW)

theorem lt_duration_of_lt_numWindows {D W : ℚ} (hW : 0 < W) {i : ℕ}
    (h : i < numWindows D W) : (i : ℚ) * W < D := by
  have hi : (i : ℚ) < D / W := Nat.lt_ceil.mp h
  calc (i : ℚ) * W < (D / W) * W := by
        exact mul_lt_mul_of_pos_right hi hW
    _ = D := div_mul_cancel₀ D (ne_of_gt hW)

theorem duration_le_numWindows_mul {D W : ℚ} (hW : 0 < W) :
    D ≤ (numWindows D W : ℚ) * W := by
  have h : D / W ≤ (numWindows D W : ℚ) := Nat.le_ceil (D / W)
  calc D = (D / W) * W := (div_mul_cancel₀ D (ne_of_gt hW)).symm
    _ ≤ (numWindows D W : ℚ) * W := mul_le_mul_of_nonneg_right h (le_of_lt hW)

/-- C1: for every duration `D > 0` and window width `W > 0`, the produced
window sequence is non-empty, starts at offset 0, is contiguous (each
window's end equals the next window's start), each window is non-degenerate
(start strictly below end, hence strictly increasing start order), the last
window ends exactly at `D`, and when `D < W` exactly one window is produced:
together, the windows cover exactly `[0, D)` with no gaps and no overlaps. -/
theorem relevance_segmenter_covers (D W : ℚ) (hD : 0 < D) (hW : 0 < W) :
    (buildWindows D W).length ≠ 0 ∧
    (∀ h0 : 0 < (buildWindows D W).length,
      ((buildWindows D W).get ⟨0, h0⟩).start = 0) ∧
    (∀ i (h : i + 1 < (buildWindows D W).length),
      ((buildWindows D W).get ⟨i, Nat.lt_of_succ_lt h⟩).stop =
        ((buildWindows D W).get ⟨i + 1, h⟩).start) ∧
    (∀ i (h : i < (buildWindows D W).length),
      ((buildWindows D W).get ⟨i, h⟩).start <
        ((buildWindows D W).get ⟨i, h⟩).stop) ∧
    (∀ h1 : (buildWindows D W).length - 1 < (buildWindows D W).length,
      ((buildWindows D W).get ⟨(buildWindows D W).length - 1, h1⟩).stop = D) ∧
    (D < W → (buildWindows D W).length = 1) := by
  have hlen : (buildWindows D W).length = numWindows D W := buildWindows_length D W
  have hpos : 0 < numWindows D W := numWindows_pos hD hW
  refine ⟨?_, ?_, ?_, ?_, ?_, ?_⟩
  · rw [hlen]; omega
  · intro h0
    rw [buildWindows_get]
    simp
  · intro i h
    rw [buildWindows_get, buildWindows_get]
    have hi : i + 1 < numWindows D W := by rw [hlen] at h; exact h
    have hlt : ((i + 1 : ℕ) : ℚ) < D / W := Nat.lt_ceil.mp hi
    have : ((i : ℚ) + 1) * W < D := by
      push_cast at hlt
      calc ((i : ℚ) + 1) * W < (D / W) * W :=
            mul_lt_mul_of_pos_right hlt hW
        _ = D := div_mul_cancel₀ D (ne_of_gt hW)
    simp only [min_eq_left (le_of_lt this)]
    push_cast
    ring
  · intro i h
    rw [buildWindows_get]
    have hi : i < numWindows D W := by rw [hlen] at h; exact h
    have h1 : (i : ℚ) * W < ((i : ℚ) + 1) * W := by
      have := hW; nlinarith
    have h2 : (i : ℚ) * W < D := lt_duration_of_lt_numWindows hW hi
    simp only [lt_min_iff]
    exact ⟨h1, h2⟩
  · intro h1
    rw [buildWindows_get]
    have hup : D ≤ ((numWindows D W : ℕ) : ℚ) * W := duration_le_numWindows_mul hW
    have hlast : (buildWindows D W).length - 1 + 1 = numWindows D W := by
      rw [hlen]; omega
    have hcast : (((buildWindows D W).length - 1 : ℕ) : ℚ) + 1 = (numWindows D W : ℚ) := by
      exact_mod_cast congrArg (Nat.cast : ℕ → ℚ) hlast
    simp only [hcast]
    exact min_eq_right hup
  · intro hDW
    rw [hlen]
    have hle : numWindows D W ≤ 1 := by
      apply Nat.ceil_le.mpr
      simp only [Nat.cast_one]
      exact le_of_lt ((div_lt_one hW).mpr hDW)
    omega

/-- Witness: the coverage theorem applied at source duration 25 seconds and
window width 10 seconds. -/
theorem relevance_segmenter_covers_witness :
    (0 : ℚ) < 25 ∧ (0 : ℚ) < 10 ∧ (buildWindows 25 10).length ≠ 0 :=
  ⟨by decide, by decide, (relevance_segmenter_covers 25 10 (by decide) (by decide)).1⟩

theorem dedupFrames_go_pairwise (sim : α → α → ℚ) (hsym : ∀ x y, sim x y = sim y x)
    (t : ℚ) :
    ∀ (cands acc : List (EvidenceFrame α)),
      acc.Pairwise (fun a b => sim a.fingerprint b.fingerprint ≤ t ∧
        sim b.fingerprint a.fingerprint ≤ t) →
      (cands.foldl
          (fun acc c => if acceptFrame sim t acc c then acc ++ [c] else acc) acc).Pairwise
        (fun a b => sim a.fingerprint b.fingerprint ≤ t ∧
          sim b.fingerprint a.fingerprint ≤ t) := by
  intro cands
  induction cands with
  | nil => intro acc h; simpa using h
  | cons c rest ih =>
    intro acc h
    simp only [List.foldl_cons]
    by_cases hacc : acceptFrame sim t acc c = true
    · rw [if_pos hacc]
      apply ih
      rw [List.pairwise_append]
      refine ⟨h, List.pairwise_singleton _ _, ?_⟩
      intro a ha b hb
      have hb1 : b = c := List.mem_singleton.mp hb
      have hacc2 : ∀ x ∈ acc, sim c.fingerprint x.fingerprint ≤ t := by
        simpa [acceptFrame] using hacc
      have hle := hacc2 a ha
      rw [hb1]
      exact ⟨by rw [hsym]; exact hle, hle⟩
    · rw [if_neg hacc]
      exact ih acc h

/-- C2: for every symmetric similarity function, dedup threshold and
candidate list, no two frames in the final accepted set produced by
`dedupFrames` have fingerprint similarity above the dedup threshold (in
either orientation): each candidate is appended only when within threshold
of every already-accepted frame. -/
theorem evidence_dedup_invariant (sim : α → α → ℚ)
    (hsym : ∀ x y, sim x y = sim y x) (t : ℚ)
    (cands : List (EvidenceFrame α)) :
    (dedupFrames sim t cands).Pairwise
      (fun a b => sim a.fingerprint b.fingerprint ≤ t ∧
        sim b.fingerprint a.fingerprint ≤ t) := by
  unfold dedupFrames
  exact dedupFrames_go_pairwise sim hsym t cands [] (List.Pairwise.nil)

theorem ratSim_symm (x y : ℚ) : ratSim x y = ratSim y x := by
  unfold ratSim
  rw [abs_sub_comm]

/-- Witness: the dedup invariant instantiated on a concrete candidate
list with the concrete symmetric similarity `ratSim`. -/
theorem evidence_dedup_invariant_witness :
    (dedupFrames ratSim (1/2)
        [⟨0, 0⟩, ⟨2, (1 : ℚ)/10⟩, ⟨4, 5⟩]).Pairwise
      (fun a b => ratSim a.fingerprint b.fingerprint ≤ 1/2 ∧
        ratSim b.fingerprint a.fingerprint ≤ 1/2) :=
  evidence_dedup_invariant ratSim ratSim_symm (1/2) [⟨0, 0⟩, ⟨2, (1 : ℚ)/10⟩, ⟨4, 5⟩]

theorem canStep_rank_lt (u v : TaskState) (h : canStep u v = true) : RankLt u v := by
  cases u with
  | stage s =>
    cases v with
    | stage s2 =>
      cases s <;> cases s2 <;> simp_all [canStep, Stage.next, RankLt, TaskState.rank, Stage.rank]
    | failed o r =>
      cases s <;> simp_all [canStep, RankLt, TaskState.rank, Stage.rank]
  | failed o r => simp [canStep] at h

/-- C3: stage transitions are strictly forward (every allowed transition
strictly increases the lifecycle rank); along any transition trace the
states are pairwise strictly increasing in rank, so no stage is ever
re-entered; and terminal states (`Completed` and `failed`) admit no further
transition, so once terminal the task record is never mutated again. -/
theorem task_lifecycle_forward :
    (∀ u v : TaskState, canStep u v = true → RankLt u v) ∧
    (∀ l : List TaskState, List.Chain' (fun u v => canStep u v = true) l →
      l.Pairwise RankLt ∧ l.Pairwise (fun u v => u ≠ v)) ∧
    (∀ u v : TaskState, u.isTerminal = true → canStep u v = false) := by
  refine ⟨canStep_rank_lt, ?_, ?_⟩
  · intro l hl
    have hchain : List.Chain' RankLt l := List.Chain'.imp (fun u v h => canStep_rank_lt u v h) hl
    have hpw : l.Pairwise RankLt := List.chain'_iff_pairwise.mp hchain
    refine ⟨hpw, hpw.imp ?_⟩
    intro u v h
    intro huv
    subst huv
    exact lt_irrefl _ h
  · intro u v hterm
    cases u with
    | stage s =>
      cases s
      case Completed => cases v <;> simp [canStep, Stage.next]
      all_goals simp [TaskState.isTerminal] at hterm
    | failed o r => simp [canStep]

/-- Witness: the lifecycle theorem applied to a concrete trace that
advances from `Queued` and then fails at `ProxyBuilding`, and to a
concrete terminal state. -/
theorem task_lifecycle_forward_witness :
    RankLt (.stage .Queued) (.stage .ProxyBuilding) ∧
    ([TaskState.stage .Queued, .stage .ProxyBuilding,
        .failed .ProxyBuilding "decode error"].Pairwise RankLt ∧
      [TaskState.stage .Queued, .stage .ProxyBuilding,
        .failed .ProxyBuilding "decode error"].Pairwise (fun u v => u ≠ v)) ∧
    canStep (.stage .Completed) (.stage .Queued) = false :=
  ⟨task_lifecycle_forward.1 (.stage .Queued) (.stage .ProxyBuilding) (by decide),
   task_lifecycle_forward.2.1
     [TaskState.stage .Queued, .stage .ProxyBuilding,
       .failed .ProxyBuilding "decode error"]
     (by simp [List.chain'_cons, canStep, Stage.next]),
   task_lifecycle_forward.2.2 (.stage .Completed) (.stage .Queued) (by decide)⟩

theorem tryGenerate_all_fail (attempt : ℕ → Except String String)
    (errs : ℕ → String) :
    ∀ (n i : ℕ), 0 < n → (∀ j, j < n → attempt (i + j) = Except.error (errs (i + j))) →
      tryGenerate attempt n i = Except.error (errs (i + n - 1)) := by
  intro n
  induction n with
  | zero => intro i h; omega
  | succ k ih =>
    intro i _ hfail
    cases k with
    | zero =>
      have h0 := hfail 0 (by omega)
      simp only [Nat.add_zero] at h0
      simpa [tryGenerate] using h0
    | succ m =>
      have h0 := hfail 0 (by omega)
      simp only [Nat.add_zero] at h0
      have hrec : tryGenerate attempt (m + 2) i =
          tryGenerate attempt (m + 1) (i + 1) := by
        simp [tryGenerate, h0]
      rw [hrec]
      have := ih (i + 1) (by omega) (fun j hj => by
        have := hfail (j + 1) (by omega)
        simpa [Nat.add_assoc, Nat.add_comm 1 j] using this)
      have harg : i + 1 + (m + 1) - 1 = i + (m + 2) - 1 := by omega
      rw [this, harg]

/-- C4: when every attempt within the retry budget fails, the task reaches
`failed` with origin stage `Generating` carrying the last attempt's error
detail, and no partial result is stored on the task. -/
theorem generation_retry_exhaustion (t : Task) (budget : ℕ)
    (attempt : ℕ → Except String String) (errs : ℕ → String)
    (hpos : 0 < budget)
    (hfail : ∀ j, j < budget → attempt j = Except.error (errs j)) :
    finishGeneration t budget attempt =
      { t with state := .failed .Generating (errs (budget - 1)), result := none } := by
  unfold finishGeneration
  have h := tryGenerate_all_fail attempt errs budget 0 hpos
    (fun j hj => by simpa using hfail j hj)
  simp only [Nat.zero_add] at h
  rw [h]

/-- Witness: three failing attempts against a budget of three leave the
task failed at `Generating` with the last error and no result. -/
theorem generation_retry_exhaustion_witness :
    0 < 3 ∧ (∀ j, j < 3 → demoAttempt j = Except.error (demoErrs j)) ∧
    finishGeneration demoTask 3 demoAttempt =
      { demoTask with state := .failed .Generating (demoErrs 2), result := none } :=
  ⟨by decide, fun j _ => rfl,
   generation_retry_exhaustion demoTask 3 demoAttempt demoErrs (by decide)
     (fun j _ => rfl)⟩

/-- C5: whenever the source is absent for the active source kind (no file
selected in file mode, or a blank Drive URL in drive mode), `handleSubmit`
fails fast with the validation message — no API request of any kind is
issued — and the submit button is disabled. -/
theorem start_task_missing_source (f : FormState) (h : hasInput f = false) :
    handleSubmit f = .validationError (missingSourceMsg f.uploadMode) ∧
    (∀ r, handleSubmit f ≠ .request r) ∧
    submitDisabled f false = true ∧ submitDisabled f true = true := by
  refine ⟨?_, ?_, ?_, ?_⟩
  · simp [handleSubmit, h]
  · intro r
    simp [handleSubmit, h]
  · simp [submitDisabled, h]
  · simp [submitDisabled, h]

/-- Witness: submitting the pristine form (file mode, no file selected)
yields the validation error and a disabled submit button. -/
theorem start_task_missing_source_witness :
    hasInput initialForm = false ∧
    handleSubmit initialForm =
      .validationError (missingSourceMsg initialForm.uploadMode) ∧
    submitDisabled initialForm false = true :=
  ⟨by decide,
   (start_task_missing_source initialForm (by decide)).1,
   (start_task_missing_source initialForm (by decide)).2.2.1⟩

/-- C6: when every registry mode carries one of the fixed department tags,
the presented catalog preserves the grouping contract exactly: every mode
appears in the catalog under the group labelled with its own department, each
rendered group is precisely the registry's ordered list of modes with that
tag (so no mode is dropped, duplicated across other groups, or moved), and
every mode inside a group carries that group's tag. -/
theorem mode_catalog_grouping (modes : List ModeInfo)
    (hall : ∀ m ∈ modes, m.department ∈ departmentOrder) :
    (∀ m ∈ modes, ∃ g ∈ modeCatalog modes, g.1 = m.department ∧ m ∈ g.2) ∧
    (∀ g ∈ modeCatalog modes, g.2 = modesFor modes g.1) ∧
    (∀ g ∈ modeCatalog modes, ∀ m ∈ g.2, m.department = g.1 ∧ m ∈ modes) := by
  have hmem : ∀ g ∈ modeCatalog modes, g.2 = modesFor modes g.1 := by
    intro g hg
    have hg2 := List.mem_filter.mp hg
    obtain ⟨d, _, hdg⟩ := List.mem_map.mp hg2.1
    rw [← hdg]
  refine ⟨?_, hmem, ?_⟩
  · intro m hm
    refine ⟨(m.department, modesFor modes m.department), ?_, rfl, ?_⟩
    · apply List.mem_filter.mpr
      constructor
      · exact List.mem_map.mpr ⟨m.department, hall m hm, rfl⟩
      · have hmm : m ∈ modesFor modes m.department := by
          apply List.mem_filter.mpr
          exact ⟨hm, by simp⟩
        have hne : modesFor modes m.department ≠ [] := List.ne_nil_of_mem hmm
        simpa [List.isEmpty_iff] using hne
    · apply List.mem_filter.mpr
      exact ⟨hm, by simp⟩
  · intro g hg m hmg
    rw [hmem g hg] at hmg
    have := List.mem_filter.mp hmg
    exact ⟨by simpa using this.2, this.1⟩

/-- Witness: the grouping contract holds of the concrete enumeration; in
particular each rendered group equals the registry's ordered list for its
tag. -/
theorem mode_catalog_grouping_witness :
    (∀ m ∈ demoModes, m.department ∈ departmentOrder) ∧
    (∀ g ∈ modeCatalog demoModes, g.2 = modesFor demoModes g.1) :=
  ⟨by decide, (mode_catalog_grouping demoModes (by decide)).2.1⟩

/-- C7 counterexample: in the manual path (no session reference) with the
import-URL source kind, `handleSubmit` does not issue an upload request as
the claim requires; it throws an error demanding an active session, so the
manual path does not work identically for every source kind. -/
theorem manual_drive_import_counterexample :
    handleSubmit driveNoSessionForm =
      .raisedError "Drive import currently requires an active session context." := by
  decide

/-- C7 amended: a present session reference pre-selects its
`suggested_mode` (and a session without one leaves the selection alone);
without a session the manual path works for the uploaded-file source kind,
issuing the manual upload with the form's own (non-pre-selected) mode; but
for the import-URL source kind the manual path fails with an error
requiring an active session, and with a session present the file upload is
issued against that session. -/
theorem session_preselect_and_manual_path :
    (∀ (f : FormState) (s : SessionRef) (m : String),
      s.suggested_mode = some m → (applySession f s).selectedMode = m) ∧
    (∀ (f : FormState) (s : SessionRef),
      s.suggested_mode = none → (applySession f s).selectedMode = f.selectedMode) ∧
    (∀ (f : FormState) (v : String),
      f.session = none → f.uploadMode = .file → f.videoFile = some v →
      handleSubmit f = .request (.manualUpload v
        (if f.projectName == "" then "Untitled Project" else f.projectName)
        f.language f.selectedMode)) ∧
    (∀ f : FormState,
      f.session = none → f.uploadMode = .drive → trimString f.driveUrl ≠ "" →
      handleSubmit f =
        .raisedError "Drive import currently requires an active session context.") ∧
    (∀ (f : FormState) (s : SessionRef) (v : String),
      f.session = some s → f.uploadMode = .file → f.videoFile = some v →
      handleSubmit f = .request (.sessionUpload s.id f.selectedMode v)) := by
  refine ⟨?_, ?_, ?_, ?_, ?_⟩
  · intro f s m hm
    simp [applySession, hm]
  · intro f s hm
    simp [applySession, hm]
  · intro f v hs hk hv
    simp [handleSubmit, hasInput, hk, hv, hs]
  · intro f hs hk hurl
    simp [handleSubmit, hasInput, hk, hs, hurl]
  · intro f s v hs hk hv
    simp [handleSubmit, hasInput, hk, hv, hs]

/-- Witness: the amended claim applied to a concrete session (pre-selecting
`bug_report`) and to a concrete manual file upload. -/
theorem session_preselect_and_manual_path_witness :
    demoSession.suggested_mode = some "bug_report" ∧
    (applySession initialForm demoSession).selectedMode = "bug_report" ∧
    handleSubmit { initialForm with videoFile := some "demo.mp4" } =
      .request (.manualUpload "demo.mp4" "Untitled Project" "en" "general_doc") :=
  ⟨rfl,
   session_preselect_and_manual_path.1 initialForm demoSession "bug_report" rfl,
   session_preselect_and_manual_path.2.2.1
     { initialForm with videoFile := some "demo.mp4" } "demo.mp4" rfl rfl rfl⟩

theorem viewerStep_preserves_inv (taskId : String) (s : ViewerState)
    (e : ViewerEvent) (hinv : ViewerInv s) :
    ViewerInv (viewerStep taskId s e).1 := by
  obtain ⟨hr, hs⟩ := hinv
  cases e with
  | rateUp ok =>
    by_cases h : taskId == ""
    · simp [viewerStep, h, ViewerInv]
    · simp [viewerStep, h, ViewerInv]
  | rateDown => simp [viewerStep, ViewerInv]
  | editComment txt =>
    exact ⟨by simpa [viewerStep] using hr, by simpa [viewerStep] using hs⟩
  | submitComment ok =>
    by_cases h : taskId == ""
    · simpa [viewerStep, h, ViewerInv] using ⟨hr, hs⟩
    · simpa [viewerStep, h, ViewerInv] using ⟨hr, hs⟩

theorem viewerStep_emit_shape (taskId : String) (s : ViewerState)
    (e : ViewerEvent) (hinv : ViewerInv s) (hen : eventEnabled s e = true) :
    ∀ p ∈ (viewerStep taskId s e).2,
      (p.1.rating = some 5 ∨ p.1.rating = some 1) ∧ p.1.taskId = taskId := by
  obtain ⟨hr, hs⟩ := hinv
  intro p hp
  cases e with
  | rateUp ok =>
    by_cases h : taskId == ""
    · simp [viewerStep, h] at hp
    · simp [viewerStep, h] at hp
      subst hp
      simp
  | rateDown => simp [viewerStep] at hp
  | editComment txt => simp [viewerStep] at hp
  | submitComment ok =>
    by_cases h : taskId == ""
    · simp [viewerStep, h] at hp
    · simp [viewerStep, h] at hp
      have hshow : s.showCommentInput = true := by
        simp [eventEnabled] at hen
        exact hen.1
      have hne := hs hshow
      subst hp
      rcases hr with h0 | h1 | h5
      · exact absurd h0 hne
      · simp [h1]
      · simp [h5]

theorem viewerRun_emit_shape (taskId : String) :
    ∀ (evs : List ViewerEvent) (s : ViewerState), ViewerInv s →
      ∀ p ∈ (viewerRun taskId s evs).2,
        (p.1.rating = some 5 ∨ p.1.rating = some 1) ∧ p.1.taskId = taskId := by
  intro evs
  induction evs with
  | nil => intro s _ p hp; simp [viewerRun] at hp
  | cons e rest ih =>
    intro s hinv p hp
    by_cases hen : eventEnabled s e = true
    · simp only [viewerRun, hen, if_pos] at hp
      rcases List.mem_append.mp hp with hp1 | hp2
      · exact viewerStep_emit_shape taskId s e hinv hen p
          (by simpa using hp1)
      · exact ih (viewerStep taskId s e).1
          (viewerStep_preserves_inv taskId s e hinv) p hp2
    · simp only [viewerRun, hen, if_neg, Bool.not_eq_true] at hp
      exact ih s hinv p (by simpa [viewerRun, hen] using hp)

/-- C8: in every interaction run of the feedback section, every feedback
request sent carries rating 5 (thumbs up) or rating 1 (thumbs down, with
the comment text alongside) and is keyed by the viewed task's identifier. -/
theorem feedback_record_shape (taskId : String) (evs : List ViewerEvent) :
    ∀ p ∈ (viewerRun taskId initialViewer evs).2,
      (p.1.rating = some 5 ∨ p.1.rating = some 1) ∧ p.1.taskId = taskId :=
  viewerRun_emit_shape taskId evs initialViewer (by simp [ViewerInv, initialViewer])

/-- Witness: the thumbs-up request of a concrete run carries rating 5 and
the task's identifier. -/
theorem feedback_record_shape_witness :
    (demoFeedback.1.rating = some 5 ∨ demoFeedback.1.rating = some 1) ∧
      demoFeedback.1.taskId = "t1" :=
  feedback_record_shape "t1" [.rateUp true] demoFeedback (by decide)

theorem eventEnabled_submitted (s : ViewerState) (hs : s.submitted = true)
    (e : ViewerEvent) : eventEnabled s e = false := by
  cases e <;> simp [eventEnabled, hs]

theorem viewerRun_submitted (taskId : String) :
    ∀ (evs : List ViewerEvent) (s : ViewerState), s.submitted = true →
      viewerRun taskId s evs = (s, []) := by
  intro evs
  induction evs with
  | nil => intro s _; rfl
  | cons e rest ih =>
    intro s hs
    simp [viewerRun, eventEnabled_submitted s hs e, ih s hs]

theorem viewerStep_out (taskId : String) (s : ViewerState) (e : ViewerEvent) :
    ((viewerStep taskId s e).2 = none ∧
      (viewerStep taskId s e).1.submitted = s.submitted) ∨
    (∃ r b, (viewerStep taskId s e).2 = some (r, b) ∧
      (viewerStep taskId s e).1.submitted = b) := by
  cases e with
  | rateUp ok =>
    by_cases htid : taskId == ""
    · left; simp [viewerStep, htid]
    · right
      exact ⟨⟨taskId, some 5, s.comment⟩, ok, by simp [viewerStep, htid]⟩
  | rateDown => left; simp [viewerStep]
  | editComment txt => left; simp [viewerStep]
  | submitComment ok =>
    by_cases htid : taskId == ""
    · left; simp [viewerStep, htid]
    · right
      exact ⟨⟨taskId, s.rating, s.comment⟩, ok, by simp [viewerStep, htid]⟩

theorem viewerRun_pairwise (taskId : String) :
    ∀ (evs : List ViewerEvent) (s : ViewerState),
      ((viewerRun taskId s evs).2).Pairwise (fun p _ => p.2 = false) := by
  intro evs
  induction evs with
  | nil => intro s; simp [viewerRun]
  | cons e rest ih =>
    intro s
    by_cases hen : eventEnabled s e = true
    · simp only [viewerRun, hen, if_pos]
      rcases viewerStep_out taskId s e with ⟨hnone, _⟩ | ⟨r, b, hsome, hsub⟩
      · simpa [hnone] using ih (viewerStep taskId s e).1
      · rw [hsome]
        cases b with
        | true =>
          have hrest := viewerRun_submitted taskId rest (viewerStep taskId s e).1 hsub
          simp [hrest]
        | false =>
          simp only [Option.toList_some, List.singleton_append]
          refine List.pairwise_cons.mpr ⟨?_, ih (viewerStep taskId s e).1⟩
          intro q hq
          rfl
    · have hen2 : eventEnabled s e = false := by
        simpa using hen
      simp only [viewerRun, hen2, Bool.false_eq_true, if_false]
      exact ih s

/-- C10: at most one feedback record is submitted per rendered document
view.  Once `submitted` is set every feedback control is unrendered (no
event can fire from a submitted state), and in every interaction run the
sequence of sent requests has every successful call last — so no request
at all is sent after a submission succeeds, and at most one submission
succeeds. -/
theorem feedback_single_submission :
    (∀ (s : ViewerState) (e : ViewerEvent), s.submitted = true →
      eventEnabled s e = false) ∧
    (∀ (taskId : String) (evs : List ViewerEvent),
      ((viewerRun taskId initialViewer evs).2).Pairwise (fun p _ => p.2 = false)) :=
  ⟨fun s e hs => eventEnabled_submitted s hs e,
   fun taskId evs => viewerRun_pairwise taskId evs initialViewer⟩

/-- Witness: from a submitted state the thumbs-up control cannot fire, and
a concrete run whose second click succeeds sends nothing afterwards. -/
theorem feedback_single_submission_witness :
    eventEnabled ⟨some 5, "", false, true⟩ (.rateUp true) = false ∧
    ((viewerRun "t1" initialViewer
        [.rateUp false, .rateUp true, .rateDown]).2).Pairwise
      (fun p _ => p.2 = false) :=
  ⟨feedback_single_submission.1 ⟨some 5, "", false, true⟩ (.rateUp true) rfl,
   feedback_single_submission.2 "t1" [.rateUp false, .rateUp true, .rateDown]⟩

/-- C9: the completed result is handed off verbatim: the clipboard export
writes exactly the documentation content string unchanged, every
non-clipboard export call is made with the task's own identifier and the
unchanged target, and `SessionDetails` hands `ExportOptions` the session's
own identifier together with its stored markdown unmodified (falling back
to the stored result only when the markdown is absent). -/
theorem completed_result_handoff :
    (∀ content taskId : String,
      handleExport content taskId "clipboard" = .clipboard content) ∧
    (∀ content taskId target : String, target ≠ "clipboard" →
      handleExport content taskId target = .backendExport taskId target) ∧
    (∀ s : SessionRecord, (sessionDetailsHandoff s).1 = s.id) ∧
    (∀ s : SessionRecord, s.doc_markdown ≠ "" →
      (sessionDetailsHandoff s).2 = s.doc_markdown) ∧
    (∀ s : SessionRecord, s.doc_markdown = "" →
      (sessionDetailsHandoff s).2 = jsOr s.result "") := by
  refine ⟨?_, ?_, ?_, ?_, ?_⟩
  · intro content taskId
    simp [handleExport]
  · intro content taskId target h
    simp [handleExport, h]
  · intro s; rfl
  · intro s h
    simp [sessionDetailsHandoff, sessionDocumentation, jsOr, h]
  · intro s h
    simp [sessionDetailsHandoff, sessionDocumentation, jsOr, h]

/-- Witness: exporting a concrete document to the clipboard writes it
unchanged, and a Notion export is keyed by the task's identifier. -/
theorem completed_result_handoff_witness :
    handleExport "# Report" "t1" "clipboard" = .clipboard "# Report" ∧
    handleExport "# Report" "t1" "notion" = .backendExport "t1" "notion" :=
  ⟨completed_result_handoff.1 "# Report" "t1",
   completed_result_handoff.2.1 "# Report" "t1" "notion" (by decide)⟩

end DevLens
